import Mathlib

/-!
# Verification of the org-iac-poc configuration-resolution and wiring logic

Shallow embedding of the environment-scoped resource-selection and wiring
procedure of the `org-iac-poc` repository: the configuration record types,
the environment filter, the policy/role/group/user factory functions, the
dev-stack wiring loops, the foundation-stack account loop, and the output
projections.  All definitions are translated directly from the TypeScript
source (`src/stacks/environments/dev/index.ts`, `src/stacks/foundation/index.ts`,
`src/shared/org-library/*`, and the policy factory module).
-/

namespace OrgIac

/-- A group configuration record (`src/config/groups.ts` entries). -/
structure GroupRecord where
  name : String
  environment : String
  deriving Repr, DecidableEq

/-- A role configuration record (`src/config/roles.ts` entries). -/
structure RoleRecord where
  name : String
  description : String
  policyArns : List String
  deriving Repr, DecidableEq

/-- A user configuration record (`src/config/users.ts` entries).
`groups`, `managedPolicies` and `assumeRoles` default to `[]` when the
field is absent in the source config (a missing field short-circuits the
`user.xs && user.xs.some(...)` guards exactly as the empty list does).
`tags` is `none` when the user has no `tags` object. -/
structure UserRecord where
  username : String
  email : String
  description : String
  groups : List String
  managedPolicies : List String
  assumeRoles : List String
  tags : Option (List (String × String))
  deriving Repr, DecidableEq

/-- JS-object key lookup on an association list (first binding wins,
matching a spread-free object literal whose keys are distinct). -/
def getKey (m : List (String × String)) (k : String) : Option String :=
  (m.find? (fun kv => kv.1 == k)).map (fun kv => kv.2)

/-- JS-object key override, as performed by a spread followed by an
explicit key (`{...tags, K: v}`): an existing binding for `k` is replaced
in place, otherwise the binding is appended. -/
def setKey (m : List (String × String)) (k v : String) : List (String × String) :=
  if m.any (fun kv => kv.1 == k) then
    m.map (fun kv => if kv.1 == k then (k, v) else kv)
  else m ++ [(k, v)]

/-!
## Environment filter

`src/stacks/environments/dev/index.ts` lines 97-98:
```ts
const devGroupsConfig = groupsConfig.filter(group =>
    group.environment === 'dev' || group.environment === 'all');
```
generalised over the environment tag (the prod stack uses the identical
expression with `'prod'`).
-/
def envFilter (table : List GroupRecord) (tag : String) : List GroupRecord :=
  table.filter (fun group => group.environment == tag || group.environment == "all")

/-!
## Deferred references and declared resources

A Pulumi `Output` consumed to parameterise another resource (e.g.
`role.arn`) is a deferred reference to an attribute of a resource handle.
We embed such values as a symbolic reference keyed by the logical name of
the resource it came from.
-/

/-- A deferred provider value: either a literal string or a reference to an
attribute of a created resource handle (by the handle's logical name). -/
inductive Ref where
  | lit (s : String)
  | roleArn (logicalName : String)
  | roleNameOf (logicalName : String)
  | policyArn (logicalName : String)
  | policyId (logicalName : String)
  | groupNameOf (logicalName : String)
  | userNameOf (logicalName : String)
  | accountId (logicalName : String)
  | accountArn (logicalName : String)
  | ouId (logicalName : String)
  | ouArn (logicalName : String)
  | attachmentId (logicalName : String)
  deriving Repr, DecidableEq

/-- One statement of an IAM policy document, as built by the dev stack's
per-(user,role) assume policies (`{Effect, Action, Resource}`). -/
structure PolicyStatement where
  effect : String
  action : String
  resource : Ref
  deriving Repr, DecidableEq

/-- An IAM policy document: version plus statement list. -/
structure PolicyDocument where
  version : String
  statements : List PolicyStatement
  deriving Repr, DecidableEq

/-- One statement of a role trust document, as built by the dev stack's
role loop (`{Effect, Principal: {AWS}, Action, Condition: {StringEquals}}`). -/
structure TrustStatement where
  effect : String
  principalAWS : String
  action : String
  conditionStringEquals : List (String × String)
  deriving Repr, DecidableEq

/-- A role trust ("assume-role") document. -/
structure TrustDocument where
  version : String
  statements : List TrustStatement
  deriving Repr, DecidableEq

/-- A declared provider resource, carrying exactly the arguments the source
passes to the provider constructor at each call site (constructors the
source calls without a `tags` argument have no tags field). -/
inductive Resource where
  | iamPolicy (logicalName : String) (description : Option String)
      (document : PolicyDocument) (path : Option String)
      (tags : List (String × String))
  | orgPolicy (logicalName : String) (policyType : String) (name : String)
      (description : Option String)
  | orgPolicyAttachment (logicalName : String) (policyId : Ref) (targetId : Option String)
  | iamRole (logicalName : String) (name : Option String) (description : Option String)
      (assumeRolePolicy : TrustDocument) (tags : List (String × String))
  | rolePolicyAttachment (logicalName : String) (role : Ref) (policyArn : String)
  | rolePolicy (logicalName : String) (role : Ref) (policy : String)
  | iamGroup (logicalName : String) (path : Option String)
  | groupPolicyAttachment (logicalName : String) (group : Ref) (policyArn : Ref)
  | iamUser (logicalName : String) (name : String) (path : String)
      (tags : List (String × String)) (forceDestroy : Bool)
  | userGroupMembership (logicalName : String) (user : Ref) (groups : List String)
  | userPolicyAttachment (logicalName : String) (user : Ref) (policyArn : Ref)
  | account (logicalName : String) (name : String) (email : String)
      (parentId : Option Ref) (roleName : String)
  deriving Repr, DecidableEq

/-- The tags argument a resource was created with (`[]` for constructors
the source calls without tags, and for resource kinds that take none). -/
def Resource.resTags : Resource → List (String × String)
  | .iamPolicy _ _ _ _ tags => tags
  | .iamRole _ _ _ _ tags => tags
  | .iamUser _ _ _ tags _ => tags
  | _ => []

/-- The Pulumi logical name a resource was declared under. -/
def Resource.logicalNameOf : Resource → String
  | .iamPolicy n _ _ _ _ => n
  | .orgPolicy n _ _ _ => n
  | .orgPolicyAttachment n _ _ => n
  | .iamRole n _ _ _ _ => n
  | .rolePolicyAttachment n _ _ => n
  | .rolePolicy n _ _ => n
  | .iamGroup n _ => n
  | .groupPolicyAttachment n _ _ => n
  | .iamUser n _ _ _ _ => n
  | .userGroupMembership n _ _ => n
  | .userPolicyAttachment n _ _ => n
  | .account n _ _ _ _ => n

/-!
## Policy factory (`createPolicy` and the per-kind constructors)

From the policy factory module: `createIamPolicy`, `createServiceControlPolicy`,
`createTagPolicy`, and the `createPolicy` dispatcher whose `default` branch
throws `Unsupported policy type: ...`.  A thrown JS exception is embedded
as `Except.error`; a normal return as `Except.ok` of the created resources
paired with the returned handle record.
-/

/-- Options accepted by the policy factory (union of the per-kind option
shapes; `type` is the runtime discriminant string). -/
structure PolicyOptions where
  name : String
  type : String
  description : Option String
  document : PolicyDocument
  path : Option String
  tags : List (String × String)
  environment : Option String
  targetId : Option String
  deriving Repr, DecidableEq

/-- The `{policy, arn, id, attachmentId?}` record returned by the factory. -/
structure PolicyResult where
  arn : Ref
  id : Ref
  attachmentId : Option Ref
  deriving Repr, DecidableEq

/-- `createIamPolicy`: declares one `aws.iam.Policy` whose tags are the
caller's tags spread, then overridden with
`Environment: options.environment || "default"` and `ManagedBy: "pulumi"`. -/
def createIamPolicy (o : PolicyOptions) : List Resource × PolicyResult :=
  ([Resource.iamPolicy o.name o.description o.document o.path
      (setKey (setKey o.tags "Environment" (o.environment.getD "default"))
        "ManagedBy" "pulumi")],
   { arn := Ref.policyArn o.name, id := Ref.policyId o.name, attachmentId := none })

/-- `createServiceControlPolicy`: declares one `aws.organizations.Policy`
of type `SERVICE_CONTROL_POLICY` (no tags are passed) and one attachment
`{name}-attachment` to the target. -/
def createServiceControlPolicy (o : PolicyOptions) : List Resource × PolicyResult :=
  ([Resource.orgPolicy o.name "SERVICE_CONTROL_POLICY" o.name o.description,
    Resource.orgPolicyAttachment (o.name ++ "-attachment") (Ref.policyId o.name) o.targetId],
   { arn := Ref.policyArn o.name, id := Ref.policyId o.name,
     attachmentId := some (Ref.attachmentId (o.name ++ "-attachment")) })

/-- `createTagPolicy`: declares one `aws.organizations.Policy` of type
`TAG_POLICY` (no tags are passed) and an attachment only when a target id
is provided. -/
def createTagPolicy (o : PolicyOptions) : List Resource × PolicyResult :=
  (Resource.orgPolicy o.name "TAG_POLICY" o.name o.description ::
    (match o.targetId with
     | some tid => [Resource.orgPolicyAttachment (o.name ++ "-attachment")
         (Ref.policyId o.name) (some tid)]
     | none => []),
   { arn := Ref.policyArn o.name, id := Ref.policyId o.name,
     attachmentId := o.targetId.map (fun _ => Ref.attachmentId (o.name ++ "-attachment")) })

/-- `createPolicy`: dispatches on `options.type` and throws
`Unsupported policy type: ...` on any unrecognised value. -/
def createPolicy (o : PolicyOptions) : Except String (List Resource × PolicyResult) :=
  match o.type with
  | "IAM" => Except.ok (createIamPolicy o)
  | "SERVICE_CONTROL_POLICY" => Except.ok (createServiceControlPolicy o)
  | "TAG_POLICY" => Except.ok (createTagPolicy o)
  | t => Except.error ("Unsupported policy type: " ++ t)

/-!
## Group factory (`createIamGroup`)

`src/shared/org-library/group/factory.ts`: declares one `aws.iam.Group`
(no tags — the provider type takes none) and one `GroupPolicyAttachment`
per managed policy ARN, named `{name}-attach-{lastSegmentOfArn}` with a
`policy-{index}` fallback when the last segment is empty.
-/

/-- The `GroupPolicyAttachment` declarations of `createIamGroup`, one per
ARN, carrying the running `forEach` index. -/
def groupAttachmentsFrom (name : String) (i : Nat) : List String → List Resource
  | [] => []
  | arn :: rest =>
    let seg := (arn.splitOn "/").getLastD ""
    let policyName := if seg == "" then "policy-" ++ toString i else seg
    Resource.groupPolicyAttachment (name ++ "-attach-" ++ policyName)
        (Ref.groupNameOf name) (Ref.lit arn)
      :: groupAttachmentsFrom name (i + 1) rest

/-- `createIamGroup`: the group resource followed by its attachments. -/
def createIamGroup (name : String) (path : Option String)
    (managedPolicyArns : List String) : List Resource :=
  Resource.iamGroup name path :: groupAttachmentsFrom name 0 managedPolicyArns

/-!
## Dev-stack role wiring loop

`src/stacks/environments/dev/index.ts` lines 120-161: for each role record
a static trust document, the `aws.iam.Role`, then one
`RolePolicyAttachment` per `policyArns` entry named `{roleName}-policy-{index}`.
-/

/-- The static trust document built inside the role loop (identical for
every role record; nothing of the record flows into it). -/
def assumeRolePolicyTemplate : TrustDocument :=
  { version := "2012-10-17",
    statements := [{ effect := "Allow", principalAWS := "*",
                     action := "sts:AssumeRole",
                     conditionStringEquals := [("aws:PrincipalType", "User")] }] }

/-- The `RolePolicyAttachment` declarations of the role loop, one per ARN,
carrying the running `forEach` index. -/
def rolePolicyAttachmentsFrom (roleName : String) (i : Nat) : List String → List Resource
  | [] => []
  | arn :: rest =>
    Resource.rolePolicyAttachment (roleName ++ "-policy-" ++ toString i)
        (Ref.roleNameOf roleName) arn
      :: rolePolicyAttachmentsFrom roleName (i + 1) rest

/-- One iteration of the dev-stack role loop: the role (logical name =
config name, tagged `{Environment, ManagedBy}`) followed by its policy
attachments. -/
def wireRole (environment : String) (rc : RoleRecord) : List Resource :=
  Resource.iamRole rc.name (some rc.name) (some rc.description)
      assumeRolePolicyTemplate
      [("Environment", environment), ("ManagedBy", "pulumi")]
    :: rolePolicyAttachmentsFrom rc.name 0 rc.policyArns

/-!
## Dev-stack user selection and wiring

`src/stacks/environments/dev/index.ts` lines 169-265.  The `groups` map
has exactly the names of the environment-filtered group records as keys,
and the `roles` map has exactly the names of the environment's role table
as keys (both are populated by the creation loops above them), so the
`groups.has(...)` and `roles.get(...)` calls are embedded as name lookups
in the corresponding tables.
-/

/-- `groups.has(g)` — `g` is a key of the created-group map, i.e. the name
of some environment-filtered group record. -/
def groupsHas (groupsCfg : List GroupRecord) (tag : String) (g : String) : Bool :=
  (envFilter groupsCfg tag).any (fun gr => gr.name == g)

/-- `devRoles.some(devRole => devRole.name === role)` — and equally the
key set of the `roles` map built from `devRoles`. -/
def roleTableHas (roleTable : List RoleRecord) (r : String) : Bool :=
  roleTable.any (fun rr => rr.name == r)

/-- The user-tag clause of the dev user filter:
`user.tags && (user.tags.Environment === 'dev' || user.tags.Environment === 'all')`,
generalised over the environment tag. -/
def userTagsEnvMatches (tag : String) (u : UserRecord) : Bool :=
  match u.tags with
  | none => false
  | some ts =>
    match getKey ts "Environment" with
    | some v => v == tag || v == "all"
    | none => false

/-- The dev-stack user selection predicate (the body of the
`usersConfig.filter(user => ...)` at lines 169-185): three early-return
clauses, i.e. a logical OR. -/
def userSelected (tag : String) (groupsCfg : List GroupRecord)
    (roleTable : List RoleRecord) (u : UserRecord) : Bool :=
  u.groups.any (groupsHas groupsCfg tag) ||
  u.assumeRoles.any (roleTableHas roleTable) ||
  userTagsEnvMatches tag u

/-- `devUsers`: the users table filtered by the selection predicate. -/
def devUsers (tag : String) (groupsCfg : List GroupRecord)
    (roleTable : List RoleRecord) (usersCfg : List UserRecord) : List UserRecord :=
  usersCfg.filter (userSelected tag groupsCfg roleTable)

/-- The name of the dedicated per-(user,role) assume policy. -/
def mkAssumePolicyName (username roleName : String) : String :=
  username ++ "-assume-" ++ roleName ++ "-policy"

/-- The document of the per-(user,role) assume policy: a single statement
allowing `sts:AssumeRole` on the looked-up role's ARN. -/
def assumePolicyDoc (roleName : String) : PolicyDocument :=
  { version := "2012-10-17",
    statements := [{ effect := "Allow", action := "sts:AssumeRole",
                     resource := Ref.roleArn roleName }] }

/-- The full options record the user wiring passes to `createPolicy` for
one (user, role) pair. -/
def assumePolicyOptions (username roleName : String) : PolicyOptions :=
  { name := mkAssumePolicyName username roleName,
    type := "IAM",
    description := some ("Policy allowing " ++ username ++ " to assume role " ++ roleName),
    document := assumePolicyDoc roleName,
    path := some "/users/assume-role-policies/",
    tags := [("User", username), ("Role", roleName),
             ("Environment", "dev"), ("ManagedBy", "pulumi")],
    environment := none,
    targetId := none }

/-- The role-assignment loop over `devRolesToAssume` (lines 233-264):
`roles.get(roleName)` succeeds exactly when the role table has the name;
on success, `createPolicy` (IAM kind) then a `UserPolicyAttachment`
`{username}-assume-{roleName}` to the new policy's ARN.  A thrown
exception propagates. -/
def wireAssumeRoles (username : String) (roleTable : List RoleRecord) :
    List String → Except String (List Resource)
  | [] => Except.ok []
  | roleName :: rest =>
    if roleTableHas roleTable roleName then
      match createPolicy (assumePolicyOptions username roleName) with
      | Except.error e => Except.error e
      | Except.ok (pres, presult) =>
        match wireAssumeRoles username roleTable rest with
        | Except.error e => Except.error e
        | Except.ok rest' =>
          Except.ok (pres ++
            Resource.userPolicyAttachment (username ++ "-assume-" ++ roleName)
              (Ref.userNameOf username) presult.arn :: rest')
    else
      wireAssumeRoles username roleTable rest

/-- The direct managed-policy loop (lines 214-224):
`managedPolicies.get(policyName)` succeeds exactly when the managed-policy
map (keyed by `policiesConfig.managedPolicies` names) has the name; on
success one `UserPolicyAttachment` `{username}-{policyName}`. -/
def wireManagedPolicies (username : String) (managedPolicyNames : List String) :
    List String → List Resource
  | [] => []
  | policyName :: rest =>
    if managedPolicyNames.contains policyName then
      Resource.userPolicyAttachment (username ++ "-" ++ policyName)
          (Ref.userNameOf username) (Ref.policyArn policyName)
        :: wireManagedPolicies username managedPolicyNames rest
    else
      wireManagedPolicies username managedPolicyNames rest

/-- One iteration of the dev-stack user loop (lines 188-265): create the
IAM user, then the optional group-membership edge, the direct
managed-policy attachments, and the per-(user,role) assume wiring. -/
def wireUser (groupsCfg : List GroupRecord) (roleTable : List RoleRecord)
    (managedPolicyNames : List String) (u : UserRecord) :
    Except String (List Resource) :=
  let userRes := Resource.iamUser u.username u.username "/users/"
      [("Email", u.email), ("Description", u.description),
       ("Environment", "dev"), ("ManagedBy", "pulumi")] true
  let userDevGroups := u.groups.filter (groupsHas groupsCfg "dev")
  let membership :=
    if userDevGroups.isEmpty then []
    else [Resource.userGroupMembership (u.username ++ "-groups")
            (Ref.userNameOf u.username) userDevGroups]
  let managedAttach := wireManagedPolicies u.username managedPolicyNames u.managedPolicies
  let devRolesToAssume := u.assumeRoles.filter (roleTableHas roleTable)
  match wireAssumeRoles u.username roleTable devRolesToAssume with
  | Except.error e => Except.error e
  | Except.ok assumeRes => Except.ok (userRes :: membership ++ managedAttach ++ assumeRes)

/-!
## Shared role factory (`createIamRole`)

`src/shared/org-library/role/factory.ts`: destructures
`{assumeRolePolicy, managedPolicyArns = [], inlinePolicies = [], ...roleArgs}`
and declares the role under the FIXED logical name `"role"`, then one
attachment per truthy ARN named `role-attach-{lastSegment}` and one inline
policy per truthy pair named `role-inline-{policyName}`.  (Remaining
`RoleArgs` fields the factory merely forwards are omitted here.)
-/

/-- The options record of `createIamRole` (`aws.iam.RoleArgs` plus the two
attachment lists the factory strips off). -/
structure RoleOptions where
  name : Option String
  description : Option String
  assumeRolePolicy : TrustDocument
  managedPolicyArns : List String
  inlinePolicies : List (String × String)
  tags : List (String × String)
  deriving Repr, DecidableEq

/-- `createIamRole`: the role resource — logical name hard-coded to
`"role"` — followed by managed-policy attachments and inline policies. -/
def createIamRole (o : RoleOptions) : List Resource :=
  Resource.iamRole "role" o.name o.description o.assumeRolePolicy o.tags
    :: ((o.managedPolicyArns.filter (fun arn => !(arn == ""))).map (fun arn =>
          Resource.rolePolicyAttachment ("role-attach-" ++ (arn.splitOn "/").getLastD "")
            (Ref.roleNameOf "role") arn))
    ++ ((o.inlinePolicies.filter (fun p => !(p.1 == "") && !(p.2 == ""))).map (fun p =>
          Resource.rolePolicy ("role-inline-" ++ p.1) (Ref.roleNameOf "role") p.2))

/-!
## Foundation stack: account creation loop and output projections

`src/stacks/foundation/index.ts` lines 163-173: for each `(ouName, accounts)`
entry of the accounts config, one `aws.organizations.Account` named
`{name}-account` with `parentId = organizationalUnits.get(ouName)?.id`
and `roleName: "OrganizationAccountAccessRole"` — note that NO tags are
passed to the constructor.
-/

/-- An account configuration record (name and email; the parent OU is the
config key the record sits under). -/
structure AccountRecord where
  name : String
  email : String
  deriving Repr, DecidableEq

/-- `organizationalUnits.get(ouName)?.id` — map lookup on the OU handle
map, `none` when the OU name is absent. -/
def lookupRef (m : List (String × Ref)) (k : String) : Option Ref :=
  (m.find? (fun kv => kv.1 == k)).map (fun kv => kv.2)

/-- The foundation accounts loop: the declared `aws.organizations.Account`
resources (no tags are passed at this call site). -/
def wireAccounts (accountsCfg : List (String × List AccountRecord))
    (ouIds : List (String × Ref)) : List Resource :=
  accountsCfg.flatMap (fun entry =>
    entry.2.map (fun a =>
      Resource.account (a.name ++ "-account") a.name a.email
        (lookupRef ouIds entry.1) "OrganizationAccountAccessRole"))

/-- A value of an exported output field: a deferred resource attribute or
a plain string. -/
inductive OutVal where
  | ref (r : Ref)
  | str (s : String)
  deriving Repr, DecidableEq

/-- First-occurrence key deduplication, modelling the key set and
iteration order of a JS `Map` populated by repeated `set` calls (`set` on
an existing key keeps the original position). -/
def dedupKeysAux (seen : List String) : List String → List String
  | [] => []
  | x :: xs =>
    if seen.contains x then dedupKeysAux seen xs
    else x :: dedupKeysAux (x :: seen) xs

/-- The dev stack's `roles` output projection (lines 306-316): for each
entry of the `roles` map, an object with exactly the fields
`arn` and `name` taken from the role handle. -/
def projectRolesOutput (roleTable : List RoleRecord) :
    List (String × List (String × OutVal)) :=
  (dedupKeysAux [] (roleTable.map (fun rc => rc.name))).map (fun n =>
    (n, [("arn", OutVal.ref (Ref.roleArn n)), ("name", OutVal.ref (Ref.roleNameOf n))]))

/-- The foundation stack's `accounts` output projection (lines 247-257):
for each entry of the `accounts` map, an object with exactly the fields
`id` and `arn` taken from the account handle. -/
def projectAccountsOutput (accountsCfg : List (String × List AccountRecord)) :
    List (String × List (String × OutVal)) :=
  (dedupKeysAux [] (accountsCfg.flatMap (fun entry => entry.2.map (fun a => a.name)))).map
    (fun n =>
      (n, [("id", OutVal.ref (Ref.accountId (n ++ "-account"))),
           ("arn", OutVal.ref (Ref.accountArn (n ++ "-account")))]))

/-!
## Resource-kind predicates (used to state the per-claim properties)
-/

/-- Is the resource a `UserGroupMembership` edge? -/
def Resource.isUserGroupMembership : Resource → Bool
  | .userGroupMembership _ _ _ => true
  | _ => false

/-- Is the resource an `aws.iam.Policy`? -/
def Resource.isIamPolicyRes : Resource → Bool
  | .iamPolicy _ _ _ _ _ => true
  | _ => false

/-- Is the resource an `aws.iam.Role`? -/
def Resource.isIamRoleRes : Resource → Bool
  | .iamRole _ _ _ _ _ => true
  | _ => false

/-- Is the resource an `aws.iam.User`? -/
def Resource.isIamUserRes : Resource → Bool
  | .iamUser _ _ _ _ _ => true
  | _ => false

/-!
## The concrete resources produced for one (user, role) assume edge

Evaluating `createPolicy`/`createIamPolicy` on `assumePolicyOptions` gives
the following policy resource (the factory overrides the `Environment`
tag with `options.environment || "default"`, and the call site passes no
`environment` option) and attachment.
-/

/-- The dedicated per-(user,role) IAM policy resource the user wiring
declares. -/
def expectedAssumePolicy (username roleName : String) : Resource :=
  Resource.iamPolicy (mkAssumePolicyName username roleName)
    (some ("Policy allowing " ++ username ++ " to assume role " ++ roleName))
    (assumePolicyDoc roleName) (some "/users/assume-role-policies/")
    [("User", username), ("Role", roleName),
     ("Environment", "default"), ("ManagedBy", "pulumi")]

/-- The `UserPolicyAttachment` linking the user to the dedicated assume
policy's ARN. -/
def expectedAssumeAttachment (username roleName : String) : Resource :=
  Resource.userPolicyAttachment (username ++ "-assume-" ++ roleName)
    (Ref.userNameOf username) (Ref.policyArn (mkAssumePolicyName username roleName))

/-- The two resources one resolved (user, role) edge produces, in
declaration order. -/
def assumePairResources (username roleName : String) : List Resource :=
  [expectedAssumePolicy username roleName, expectedAssumeAttachment username roleName]

/-!
## Concrete configuration values (drawn from the repository's config
tables and the spec's scenario) used to instantiate theorems
-/

/-- The dev-relevant slice of `src/config/groups.ts`. -/
def cGroups : List GroupRecord :=
  [⟨"admin", "prod"⟩, ⟨"sandbox1-limited", "dev"⟩, ⟨"org-everyone", "all"⟩,
   ⟨"staging-deployers", "staging"⟩, ⟨"prod-readonly", "prod"⟩,
   ⟨"dev-developers", "dev"⟩]

/-- The scenario role table: one assumable dev role. -/
def cRoles : List RoleRecord :=
  [⟨"dev-limited-role", "Limited access role", ["arn:aws:iam::aws:policy/PowerUserAccess"]⟩]

/-- Names of the managed policies created by the dev stack. -/
def cManaged : List String := ["sandbox-environments-access"]

/-- The scenario user: in a dev group, one managed policy, one assumable
role, dev environment tag. -/
def cUser : UserRecord :=
  { username := "u1", email := "u1@example.com", description := "Scenario user",
    groups := ["sandbox1-limited"], managedPolicies := ["sandbox-environments-access"],
    assumeRoles := ["dev-limited-role"], tags := some [("Environment", "dev")] }

/-- The resource list the user wiring produces for the scenario user
(wiring is total, so the `Except` payload is extracted directly). -/
def cUserResources : List Resource :=
  ((wireUser cGroups cRoles cManaged cUser).toOption).getD []

/-- Concrete policy factory options of IAM kind. -/
def cIamPolicyOpts : PolicyOptions :=
  { name := "sandbox-environments-access", type := "IAM",
    description := some "Managed policy for sandbox-environments-access",
    document := ⟨"2012-10-17", []⟩, path := some "/managed-policies/",
    tags := [("Environment", "all"), ("ManagedBy", "pulumi")],
    environment := none, targetId := none }

/-- Concrete policy factory options with an unrecognised kind. -/
def cBadPolicyOpts : PolicyOptions :=
  { name := "legacy-policy", type := "LEGACY",
    description := none, document := ⟨"2012-10-17", []⟩, path := none,
    tags := [], environment := none, targetId := none }

/-- Concrete accounts config (one account in the dev OU). -/
def cAccounts : List (String × List AccountRecord) :=
  [("dev", [⟨"dev-account", "dev-account@example.com"⟩])]

end OrgIac

open OrgIac

/-- **C4.** For every environment tag `E` and every group table, the
environment filter returns exactly the records whose `environment` field
equals `E` or equals `"all"` (membership characterisation), and applying
the filter twice yields the same subset (idempotence). -/
theorem envFilter_exact_and_idempotent (table : List GroupRecord) (tag : String) :
    (∀ g : GroupRecord, g ∈ envFilter table tag ↔
      g ∈ table ∧ (g.environment = tag ∨ g.environment = "all")) ∧
    envFilter (envFilter table tag) tag = envFilter table tag := by
  constructor
  · intro g
    simp [envFilter, List.mem_filter, or_comm]
  · simp [envFilter, List.filter_filter]

/-- Concrete sanity check for the environment filter on the repository's
actual group table restricted to the dev tag. -/
theorem envFilter_dev_concrete :
    envFilter
      [⟨"admin", "prod"⟩, ⟨"sandbox1-limited", "dev"⟩, ⟨"org-everyone", "all"⟩,
       ⟨"staging-deployers", "staging"⟩, ⟨"prod-readonly", "prod"⟩,
       ⟨"dev-developers", "dev"⟩] "dev"
    = [⟨"sandbox1-limited", "dev"⟩, ⟨"org-everyone", "all"⟩, ⟨"dev-developers", "dev"⟩] := by
  decide

/-!
## Helper lemmas: string concatenation and JS-object key handling
-/

theorem str_append_left_cancel {a b c : String} (h : a ++ b = a ++ c) : b = c := by
  have hd : (a ++ b).data = (a ++ c).data := by rw [h]
  simp [String.data_append] at hd
  exact String.ext hd

theorem str_append_right_cancel {a b c : String} (h : a ++ c = b ++ c) : a = b := by
  have hd : (a ++ c).data = (b ++ c).data := by rw [h]
  simp [String.data_append] at hd
  exact String.ext hd

theorem mkAssumePolicyName_inj {u r r' : String}
    (h : mkAssumePolicyName u r = mkAssumePolicyName u r') : r = r' :=
  str_append_left_cancel (str_append_right_cancel h)

theorem getKey_replace_self (m : List (String × String)) (k v : String) :
    getKey (m.map (fun kv => if kv.1 == k then (k, v) else kv)) k =
      if m.any (fun kv => kv.1 == k) then some v else none := by
  induction m with
  | nil => rfl
  | cons hd tl ih =>
    obtain ⟨a, b⟩ := hd
    by_cases hh : a = k
    · simp [getKey, List.find?, hh]
    · have hb : ((a, b).1 == k) = false := by simpa using hh
      simp only [List.map_cons, hb, if_false, List.any_cons, Bool.false_or, getKey,
        List.find?, Bool.false_eq_true]
      exact ih

theorem getKey_replace_ne (m : List (String × String)) {k k' : String} (v : String)
    (hne : k' ≠ k) :
    getKey (m.map (fun kv => if kv.1 == k then (k, v) else kv)) k' = getKey m k' := by
  induction m with
  | nil => rfl
  | cons hd tl ih =>
    obtain ⟨a, b⟩ := hd
    by_cases hh : a = k
    · have h1 : ((a, b).1 == k) = true := by simpa using hh
      have h2 : ((k, v).1 == k') = false := by simpa using fun c => hne c.symm
      have h3 : ((a, b).1 == k') = false := by
        simp only [hh]; simpa using fun c => hne c.symm
      simp only [List.map_cons, h1, if_true, getKey, List.find?, h2, h3,
        Bool.false_eq_true]
      exact ih
    · have h1 : ((a, b).1 == k) = false := by simpa using hh
      by_cases hh' : a = k'
      · have h2 : ((a, b).1 == k') = true := by simpa using hh'
        simp only [List.map_cons, h1, getKey, List.find?]
        simp [h2]
      · have h2 : ((a, b).1 == k') = false := by simpa using hh'
        simp only [List.map_cons, h1, if_false, getKey, List.find?, h2,
          Bool.false_eq_true]
        exact ih

theorem getKey_append_single (m : List (String × String)) (k v k' : String) :
    getKey (m ++ [(k, v)]) k' =
      ((getKey m k').or (if k = k' then some v else none)) := by
  induction m with
  | nil =>
    by_cases h : k = k'
    · simp [getKey, List.find?, h]
    · have hb : ((k, v).1 == k') = false := by simpa using h
      simp [getKey, List.find?, hb, h]
  | cons hd tl ih =>
    obtain ⟨a, b⟩ := hd
    by_cases hh : a = k'
    · have h2 : ((a, b).1 == k') = true := by simpa using hh
      simp only [List.cons_append, getKey, List.find?, h2]
      rfl
    · have h2 : ((a, b).1 == k') = false := by simpa using hh
      simp only [List.cons_append, getKey, List.find?, h2, Bool.false_eq_true]
      exact ih

theorem getKey_setKey_self (m : List (String × String)) (k v : String) :
    getKey (setKey m k v) k = some v := by
  unfold setKey
  by_cases h : m.any (fun kv => kv.1 == k)
  · rw [if_pos h, getKey_replace_self, if_pos h]
  · rw [if_neg h, getKey_append_single]
    have hnone : getKey m k = none := by
      unfold getKey
      rw [List.find?_eq_none.mpr]
      · rfl
      · intro x hx
        have hfalse := List.any_eq_false.mp (Bool.eq_false_iff.mpr h) x hx
        simpa using hfalse
    simp [hnone]

theorem getKey_setKey_ne (m : List (String × String)) {k k' : String} (v : String)
    (hne : k' ≠ k) :
    getKey (setKey m k v) k' = getKey m k' := by
  unfold setKey
  by_cases h : m.any (fun kv => kv.1 == k)
  · rw [if_pos h, getKey_replace_ne m v hne]
  · rw [if_neg h, getKey_append_single, if_neg (fun c => hne c.symm)]
    cases getKey m k' <;> rfl

/-!
## Closed forms of the user wiring
-/

theorem createIamPolicy_assumeOptions (username roleName : String) :
    createIamPolicy (assumePolicyOptions username roleName) =
      ([expectedAssumePolicy username roleName],
       { arn := Ref.policyArn (mkAssumePolicyName username roleName),
         id := Ref.policyId (mkAssumePolicyName username roleName),
         attachmentId := none }) := rfl

theorem createPolicy_assumeOptions (username roleName : String) :
    createPolicy (assumePolicyOptions username roleName) =
      Except.ok ([expectedAssumePolicy username roleName],
       { arn := Ref.policyArn (mkAssumePolicyName username roleName),
         id := Ref.policyId (mkAssumePolicyName username roleName),
         attachmentId := none }) := rfl

theorem wireAssumeRoles_eq_ok (username : String) (roleTable : List RoleRecord)
    (l : List String) :
    wireAssumeRoles username roleTable l =
      Except.ok ((l.filter (roleTableHas roleTable)).flatMap
        (fun r => assumePairResources username r)) := by
  induction l with
  | nil => rfl
  | cons r rest ih =>
    by_cases hr : roleTableHas roleTable r
    · rw [wireAssumeRoles, if_pos hr, createPolicy_assumeOptions, ih]
      simp [List.filter_cons, hr, assumePairResources, expectedAssumeAttachment]
    · rw [wireAssumeRoles, if_neg hr, ih]
      simp [List.filter_cons, hr]

theorem wireUser_eq_ok (gc : List GroupRecord) (rt : List RoleRecord)
    (mpn : List String) (u : UserRecord) :
    wireUser gc rt mpn u = Except.ok (
      Resource.iamUser u.username u.username "/users/"
          [("Email", u.email), ("Description", u.description),
           ("Environment", "dev"), ("ManagedBy", "pulumi")] true
      :: ((if (u.groups.filter (groupsHas gc "dev")).isEmpty then []
           else [Resource.userGroupMembership (u.username ++ "-groups")
                   (Ref.userNameOf u.username) (u.groups.filter (groupsHas gc "dev"))])
          ++ wireManagedPolicies u.username mpn u.managedPolicies
          ++ (u.assumeRoles.filter (roleTableHas rt)).flatMap
               (fun r => assumePairResources u.username r))) := by
  simp [wireUser, wireAssumeRoles_eq_ok, List.filter_filter]

/-!
## Membership shape and counting lemmas for the user wiring
-/

theorem mem_wireManagedPolicies {un : String} {mpn l : List String} {x : Resource}
    (hx : x ∈ wireManagedPolicies un mpn l) :
    ∃ p, x = Resource.userPolicyAttachment (un ++ "-" ++ p)
        (Ref.userNameOf un) (Ref.policyArn p) := by
  induction l with
  | nil => cases hx
  | cons a rest ih =>
    rw [wireManagedPolicies] at hx
    by_cases ha : mpn.contains a
    · rw [if_pos ha] at hx
      rcases List.mem_cons.mp hx with h | h
      · exact ⟨a, h⟩
      · exact ih h
    · rw [if_neg ha] at hx
      exact ih hx

theorem expectedAssumePolicy_eq_iff {un r r' : String} :
    expectedAssumePolicy un r' = expectedAssumePolicy un r ↔ r' = r := by
  constructor
  · intro h
    simp only [expectedAssumePolicy, assumePolicyDoc, Resource.iamPolicy.injEq,
      PolicyDocument.mk.injEq, List.cons.injEq, PolicyStatement.mk.injEq,
      Ref.roleArn.injEq] at h
    exact h.2.2.1.2.1.2.2
  · rintro rfl; rfl

theorem expectedAssumeAttachment_eq_iff {un r r' : String} :
    expectedAssumeAttachment un r' = expectedAssumeAttachment un r ↔ r' = r := by
  constructor
  · intro h
    simp only [expectedAssumeAttachment, Resource.userPolicyAttachment.injEq,
      Ref.policyArn.injEq] at h
    exact mkAssumePolicyName_inj h.2.2
  · rintro rfl; rfl

theorem count_expectedPolicy_flatMap (un r : String) (l : List String) :
    ((l.flatMap (fun r' => assumePairResources un r')).count
      (expectedAssumePolicy un r)) = l.count r := by
  induction l with
  | nil => rfl
  | cons x xs ih =>
    rw [List.flatMap_cons, List.count_append, ih, List.count_cons]
    have hpair : (assumePairResources un x).count (expectedAssumePolicy un r) =
        if x == r then 1 else 0 := by
      by_cases hx : x = r
      · subst hx; simp [assumePairResources, List.count_cons, expectedAssumeAttachment,
          expectedAssumePolicy]
      · have h1 : expectedAssumePolicy un x ≠ expectedAssumePolicy un r :=
          fun c => hx (expectedAssumePolicy_eq_iff.mp c)
        have h2 : expectedAssumeAttachment un x ≠ expectedAssumePolicy un r := by
          simp [expectedAssumeAttachment, expectedAssumePolicy]
        simp [assumePairResources, List.count_cons, h1, h2, hx]
    omega

theorem count_expectedAttachment_flatMap (un r : String) (l : List String) :
    ((l.flatMap (fun r' => assumePairResources un r')).count
      (expectedAssumeAttachment un r)) = l.count r := by
  induction l with
  | nil => rfl
  | cons x xs ih =>
    rw [List.flatMap_cons, List.count_append, ih, List.count_cons]
    have hpair : (assumePairResources un x).count (expectedAssumeAttachment un r) =
        if x == r then 1 else 0 := by
      by_cases hx : x = r
      · subst hx; simp [assumePairResources, List.count_cons, expectedAssumeAttachment,
          expectedAssumePolicy]
      · have h1 : expectedAssumeAttachment un x ≠ expectedAssumeAttachment un r :=
          fun c => hx (expectedAssumeAttachment_eq_iff.mp c)
        have h2 : expectedAssumePolicy un x ≠ expectedAssumeAttachment un r := by
          simp [expectedAssumeAttachment, expectedAssumePolicy]
        simp [assumePairResources, List.count_cons, h1, h2, hx]
    omega

theorem count_expectedPolicy_managed (un r : String) (mpn l : List String) :
    (wireManagedPolicies un mpn l).count (expectedAssumePolicy un r) = 0 := by
  rw [List.count_eq_zero]
  intro hmem
  obtain ⟨p, hp⟩ := mem_wireManagedPolicies hmem
  simp [expectedAssumePolicy] at hp

theorem count_expectedAttachment_managed (un r : String) (mpn l : List String) :
    (wireManagedPolicies un mpn l).count (expectedAssumeAttachment un r) = 0 := by
  rw [List.count_eq_zero]
  intro hmem
  obtain ⟨p, hp⟩ := mem_wireManagedPolicies hmem
  rw [expectedAssumeAttachment] at hp
  simp only [Resource.userPolicyAttachment.injEq, Ref.policyArn.injEq] at hp
  obtain ⟨h1, -, h2⟩ := hp
  have l1 := congrArg String.length h1
  have l2 := congrArg String.length h2
  have e1 : ("-assume-" : String).length = 8 := by decide
  have e2 : ("-policy" : String).length = 7 := by decide
  have e3 : ("-" : String).length = 1 := by decide
  rw [mkAssumePolicyName] at l2
  simp only [String.length_append, e1, e2, e3] at l1 l2
  omega

theorem countP_assumeName_flatMap (un r : String) (l : List String) :
    (l.flatMap (fun r' => assumePairResources un r')).countP
      (fun x => Resource.isIamPolicyRes x &&
        (Resource.logicalNameOf x == mkAssumePolicyName un r)) = l.count r := by
  induction l with
  | nil => rfl
  | cons x xs ih =>
    rw [List.flatMap_cons, List.countP_append, ih, List.count_cons]
    have hpair : (assumePairResources un x).countP
        (fun y => Resource.isIamPolicyRes y &&
          (Resource.logicalNameOf y == mkAssumePolicyName un r)) =
        if x == r then 1 else 0 := by
      by_cases hx : x = r
      · subst hx
        simp [assumePairResources, List.countP_cons, expectedAssumePolicy,
          expectedAssumeAttachment, Resource.isIamPolicyRes, Resource.logicalNameOf]
      · have hname : ¬ (mkAssumePolicyName un x = mkAssumePolicyName un r) :=
          fun c => hx (mkAssumePolicyName_inj c)
        simp [assumePairResources, List.countP_cons, expectedAssumePolicy,
          expectedAssumeAttachment, Resource.isIamPolicyRes, Resource.logicalNameOf,
          hname, hx]
    omega

theorem countP_assumeName_managed (un r : String) (mpn l : List String) :
    (wireManagedPolicies un mpn l).countP
      (fun x => Resource.isIamPolicyRes x &&
        (Resource.logicalNameOf x == mkAssumePolicyName un r)) = 0 := by
  rw [List.countP_eq_zero]
  intro x hx
  obtain ⟨p, hp⟩ := mem_wireManagedPolicies hx
  subst hp
  simp [Resource.isIamPolicyRes]

/-- **C2.** For every wired user and every role name of the user's
`assumeRoles` list present in the environment-filtered role table, the
wiring declares exactly one dedicated IAM policy — the resource named
`{username}-assume-{roleName}-policy` whose document is the single
statement allowing `sts:AssumeRole` on that role's ARN — exactly one
IAM policy resource carrying that logical name at all, and exactly one
`UserPolicyAttachment` linking the user to that policy's ARN. -/
theorem wireUser_assume_pair_exactly_once
    (gc : List GroupRecord) (rt : List RoleRecord) (mpn : List String)
    (u : UserRecord) (r : String) (res : List Resource)
    (h1 : r ∈ u.assumeRoles) (h2 : roleTableHas rt r = true)
    (hnd : u.assumeRoles.Nodup)
    (hres : wireUser gc rt mpn u = Except.ok res) :
    res.count (expectedAssumePolicy u.username r) = 1 ∧
    res.count (expectedAssumeAttachment u.username r) = 1 ∧
    res.countP (fun x => Resource.isIamPolicyRes x &&
      (Resource.logicalNameOf x == mkAssumePolicyName u.username r)) = 1 ∧
    (assumePolicyDoc r).statements =
      [{ effect := "Allow", action := "sts:AssumeRole", resource := Ref.roleArn r }] := by
  rw [wireUser_eq_ok] at hres
  injection hres with hres
  subst hres
  have hcnt : (u.assumeRoles.filter (roleTableHas rt)).count r = 1 := by
    rw [List.count_filter h2]
    exact List.count_eq_one_of_mem hnd h1
  refine ⟨?_, ?_, ?_, rfl⟩
  · rw [List.count_cons, List.count_append, List.count_append,
        count_expectedPolicy_managed, count_expectedPolicy_flatMap, hcnt]
    by_cases hm : (u.groups.filter (groupsHas gc "dev")).isEmpty <;>
      simp [hm, List.count_cons, expectedAssumePolicy]
  · rw [List.count_cons, List.count_append, List.count_append,
        count_expectedAttachment_managed, count_expectedAttachment_flatMap, hcnt]
    by_cases hm : (u.groups.filter (groupsHas gc "dev")).isEmpty <;>
      simp [hm, List.count_cons, expectedAssumeAttachment]
  · rw [List.countP_cons, List.countP_append, List.countP_append,
        countP_assumeName_managed, countP_assumeName_flatMap, hcnt]
    by_cases hm : (u.groups.filter (groupsHas gc "dev")).isEmpty <;>
      simp [hm, List.countP_cons, Resource.isIamPolicyRes]

/-- Concrete instantiation of the per-(user,role) wiring theorem on the
spec's scenario user and role table. -/
theorem wireUser_assume_pair_exactly_once_witness :
    cUserResources.count (expectedAssumePolicy "u1" "dev-limited-role") = 1 ∧
    cUserResources.count (expectedAssumeAttachment "u1" "dev-limited-role") = 1 ∧
    cUserResources.countP (fun x => Resource.isIamPolicyRes x &&
      (Resource.logicalNameOf x == mkAssumePolicyName "u1" "dev-limited-role")) = 1 ∧
    (assumePolicyDoc "dev-limited-role").statements =
      [{ effect := "Allow", action := "sts:AssumeRole",
         resource := Ref.roleArn "dev-limited-role" }] :=
  wireUser_assume_pair_exactly_once cGroups cRoles cManaged cUser "dev-limited-role"
    cUserResources (by decide) (by decide) (by decide) (by rfl)

theorem mem_assume_flatMap {un : String} {l : List String} {x : Resource}
    (hx : x ∈ l.flatMap (fun r => assumePairResources un r)) :
    ∃ r, x = expectedAssumePolicy un r ∨ x = expectedAssumeAttachment un r := by
  rw [List.mem_flatMap] at hx
  obtain ⟨r, -, hr⟩ := hx
  rw [assumePairResources] at hr
  rcases List.mem_cons.mp hr with h | hr2
  · exact ⟨r, Or.inl h⟩
  · rcases List.mem_cons.mp hr2 with h | h
    · exact ⟨r, Or.inr h⟩
    · cases h

theorem filter_ugm_flatMap (un : String) (l : List String) :
    (l.flatMap (fun r => assumePairResources un r)).filter
      Resource.isUserGroupMembership = [] := by
  rw [List.filter_eq_nil_iff]
  intro x hx
  obtain ⟨r, h | h⟩ := mem_assume_flatMap hx <;> subst h <;>
    simp [expectedAssumePolicy, expectedAssumeAttachment, Resource.isUserGroupMembership]

theorem filter_ugm_managed (un : String) (mpn l : List String) :
    (wireManagedPolicies un mpn l).filter Resource.isUserGroupMembership = [] := by
  rw [List.filter_eq_nil_iff]
  intro x hx
  obtain ⟨p, hp⟩ := mem_wireManagedPolicies hx
  subst hp
  simp [Resource.isUserGroupMembership]

/-- **C6.** For every wired user: when the user's group list filtered to
the environment's created groups is non-empty, the wiring declares
exactly one group-membership edge, named `{username}-groups`, listing all
and only the matched groups; when the filtered list is empty, no
group-membership edge is declared. -/
theorem wireUser_group_membership_edge
    (gc : List GroupRecord) (rt : List RoleRecord) (mpn : List String)
    (u : UserRecord) (res : List Resource)
    (hres : wireUser gc rt mpn u = Except.ok res) :
    (u.groups.filter (groupsHas gc "dev") ≠ [] →
      res.filter Resource.isUserGroupMembership =
        [Resource.userGroupMembership (u.username ++ "-groups")
          (Ref.userNameOf u.username) (u.groups.filter (groupsHas gc "dev"))]) ∧
    (u.groups.filter (groupsHas gc "dev") = [] →
      res.filter Resource.isUserGroupMembership = []) := by
  rw [wireUser_eq_ok] at hres
  injection hres with hres
  subst hres
  constructor
  · intro hne
    have hm : (u.groups.filter (groupsHas gc "dev")).isEmpty = false := by
      simpa [List.isEmpty_iff] using hne
    simp [List.filter_cons, List.filter_append, hm, Resource.isUserGroupMembership,
      filter_ugm_flatMap, filter_ugm_managed]
  · intro he
    simp [List.filter_cons, List.filter_append, he, Resource.isUserGroupMembership,
      filter_ugm_flatMap, filter_ugm_managed]

/-- Concrete instantiation of the group-membership theorem on the
scenario user (whose matched group list is non-empty). -/
theorem wireUser_group_membership_edge_witness :
    cUserResources.filter Resource.isUserGroupMembership =
      [Resource.userGroupMembership ("u1" ++ "-groups") (Ref.userNameOf "u1")
        (cUser.groups.filter (groupsHas cGroups "dev"))] :=
  (wireUser_group_membership_edge cGroups cRoles cManaged cUser cUserResources
    (by rfl)).1 (by decide)

theorem wireManagedPolicies_append (un : String) (mpn a b : List String) :
    wireManagedPolicies un mpn (a ++ b) =
      wireManagedPolicies un mpn a ++ wireManagedPolicies un mpn b := by
  induction a with
  | nil => rfl
  | cons x xs ih =>
    rw [List.cons_append, wireManagedPolicies, wireManagedPolicies]
    by_cases hx : mpn.contains x
    · rw [if_pos hx, if_pos hx, ih, List.cons_append]
    · rw [if_neg hx, if_neg hx, ih]

/-- **C3.** A (user, name) reference whose name is absent from the
resolved role table (for `assumeRoles`) or from the managed-policy map
(for `managedPolicies`) produces no resource and no error: the wiring
output with the dangling reference equals the wiring output without it,
and the user wiring always returns successfully. -/
theorem wireUser_unresolved_reference_skip
    (gc : List GroupRecord) (rt : List RoleRecord) (mpn : List String)
    (u : UserRecord) (ghost : String) (l1 l2 : List String) :
    (roleTableHas rt ghost = false →
      wireUser gc rt mpn { u with assumeRoles := l1 ++ ghost :: l2 } =
        wireUser gc rt mpn { u with assumeRoles := l1 ++ l2 }) ∧
    (mpn.contains ghost = false →
      wireUser gc rt mpn { u with managedPolicies := l1 ++ ghost :: l2 } =
        wireUser gc rt mpn { u with managedPolicies := l1 ++ l2 }) ∧
    ∃ res, wireUser gc rt mpn u = Except.ok res := by
  refine ⟨fun hg => ?_, fun hg => ?_, ⟨_, wireUser_eq_ok gc rt mpn u⟩⟩
  · rw [wireUser_eq_ok, wireUser_eq_ok]
    simp [List.filter_append, List.filter_cons, hg]
  · rw [wireUser_eq_ok, wireUser_eq_ok]
    have hg' : ghost ∉ mpn := by simpa using hg
    simp [wireManagedPolicies_append, wireManagedPolicies, hg, hg']

/-- Concrete instantiation of the skip theorem: adding a reference to the
absent role `ghost-role` leaves the scenario user's wiring unchanged. -/
theorem wireUser_unresolved_reference_skip_witness :
    wireUser cGroups cRoles cManaged
        { cUser with assumeRoles := [] ++ "ghost-role" :: ["dev-limited-role"] } =
      wireUser cGroups cRoles cManaged
        { cUser with assumeRoles := [] ++ ["dev-limited-role"] } :=
  (wireUser_unresolved_reference_skip cGroups cRoles cManaged cUser "ghost-role"
    [] ["dev-limited-role"]).1 (by decide)

/-!
## User-selection characterisation
-/

theorem userTagsEnvMatches_iff (tag : String) (u : UserRecord) :
    userTagsEnvMatches tag u = true ↔
      ∃ ts, u.tags = some ts ∧
        (getKey ts "Environment" = some tag ∨ getKey ts "Environment" = some "all") := by
  cases htags : u.tags with
  | none => simp [userTagsEnvMatches, htags]
  | some ts =>
    cases hk : getKey ts "Environment" with
    | none => simp [userTagsEnvMatches, htags, hk]
    | some v =>
      simp only [userTagsEnvMatches, htags, hk, Bool.or_eq_true, beq_iff_eq,
        Option.some.injEq]
      constructor
      · rintro (rfl | rfl)
        · exact ⟨ts, rfl, Or.inl hk⟩
        · exact ⟨ts, rfl, Or.inr hk⟩
      · rintro ⟨ts', hts', h | h⟩ <;> cases hts' <;> rw [hk] at h
        · exact Or.inl (Option.some.inj h)
        · exact Or.inr (Option.some.inj h)

/-- **C1.** A user record of the users table is included in the
environment's user set exactly when (a) some entry of its `groups` list
is the name of an environment-filtered group (a key of the created-group
map), OR (b) some entry of its `assumeRoles` list equals the name of a
role in the environment's role table, OR (c) its `tags.Environment`
field equals the environment tag or `"all"`. -/
theorem devUsers_selection_characterisation
    (tag : String) (gc : List GroupRecord) (rt : List RoleRecord)
    (usersCfg : List UserRecord) (u : UserRecord) (hu : u ∈ usersCfg) :
    u ∈ devUsers tag gc rt usersCfg ↔
      ((∃ g ∈ u.groups, g ∈ (envFilter gc tag).map (fun gr => gr.name)) ∨
       (∃ r ∈ u.assumeRoles, ∃ rr ∈ rt, rr.name = r) ∨
       (∃ ts, u.tags = some ts ∧
         (getKey ts "Environment" = some tag ∨ getKey ts "Environment" = some "all"))) := by
  rw [devUsers, List.mem_filter]
  simp only [hu, true_and, userSelected, Bool.or_eq_true, List.any_eq_true,
    groupsHas, roleTableHas, beq_iff_eq, userTagsEnvMatches_iff, List.mem_map]
  constructor
  · rintro ((⟨g, hg, gr, hgr, hname⟩ | ⟨r, hr, rr, hrr, hname⟩) | h)
    · exact Or.inl ⟨g, hg, gr, hgr, hname⟩
    · exact Or.inr (Or.inl ⟨r, hr, rr, hrr, hname⟩)
    · exact Or.inr (Or.inr h)
  · rintro (⟨g, hg, gr, hgr, hname⟩ | ⟨r, hr, rr, hrr, hname⟩ | h)
    · exact Or.inl (Or.inl ⟨g, hg, gr, hgr, hname⟩)
    · exact Or.inl (Or.inr ⟨r, hr, rr, hrr, hname⟩)
    · exact Or.inr h

/-- Concrete instantiation: the scenario user is selected for the dev
environment (its group is a created dev group). -/
theorem devUsers_selection_characterisation_witness :
    cUser ∈ devUsers "dev" cGroups cRoles [cUser] :=
  (devUsers_selection_characterisation "dev" cGroups cRoles [cUser] cUser
    (by decide)).mpr (Or.inl (by decide))

/-!
## Role wiring characterisation
-/

theorem rolePolicyAttachmentsFrom_eq (n : String) (i : Nat) (l : List String) :
    rolePolicyAttachmentsFrom n i l =
      (l.enumFrom i).map (fun p =>
        Resource.rolePolicyAttachment (n ++ "-policy-" ++ toString p.1)
          (Ref.roleNameOf n) p.2) := by
  induction l generalizing i with
  | nil => rfl
  | cons a rest ih => simp [rolePolicyAttachmentsFrom, List.enumFrom, ih]

/-- **C5.** Each selected role record is wired as: one role whose trust
document is the fixed static template (taking nothing from the record) —
a single Allow statement for `sts:AssumeRole` conditioned on
`aws:PrincipalType = "User"` — followed by exactly one
`RolePolicyAttachment` per `policyArns` entry, the `i`-th named
`{roleName}-policy-{i}`. -/
theorem wireRole_static_trust_and_indexed_attachments
    (environment : String) (rc : RoleRecord) :
    wireRole environment rc =
      Resource.iamRole rc.name (some rc.name) (some rc.description)
          assumeRolePolicyTemplate
          [("Environment", environment), ("ManagedBy", "pulumi")]
        :: rc.policyArns.enum.map (fun p =>
             Resource.rolePolicyAttachment (rc.name ++ "-policy-" ++ toString p.1)
               (Ref.roleNameOf rc.name) p.2) ∧
    assumeRolePolicyTemplate =
      { version := "2012-10-17",
        statements := [{ effect := "Allow", principalAWS := "*",
                         action := "sts:AssumeRole",
                         conditionStringEquals := [("aws:PrincipalType", "User")] }] } :=
  ⟨by rw [wireRole, rolePolicyAttachmentsFrom_eq]; rfl, rfl⟩

/-!
## Policy factory dispatch
-/

/-- **C7.** `createPolicy` dispatches exactly on the three recognised
policy kinds and fails fast — with an `Unsupported policy type` error and
no created resource — on every other kind value. -/
theorem createPolicy_dispatch_exhaustive (o : PolicyOptions) :
    (o.type ≠ "IAM" → o.type ≠ "SERVICE_CONTROL_POLICY" → o.type ≠ "TAG_POLICY" →
      createPolicy o = Except.error ("Unsupported policy type: " ++ o.type)) ∧
    (o.type = "IAM" → createPolicy o = Except.ok (createIamPolicy o)) ∧
    (o.type = "SERVICE_CONTROL_POLICY" →
      createPolicy o = Except.ok (createServiceControlPolicy o)) ∧
    (o.type = "TAG_POLICY" → createPolicy o = Except.ok (createTagPolicy o)) := by
  refine ⟨fun h1 h2 h3 => ?_, fun h => ?_, fun h => ?_, fun h => ?_⟩ <;>
    unfold createPolicy <;> split <;> simp_all

/-- Concrete instantiation of the dispatch theorem: an unrecognised kind
value throws, and the IAM kind dispatches to `createIamPolicy`. -/
theorem createPolicy_dispatch_exhaustive_witness :
    createPolicy cBadPolicyOpts =
      Except.error ("Unsupported policy type: " ++ "LEGACY") ∧
    createPolicy cIamPolicyOpts = Except.ok (createIamPolicy cIamPolicyOpts) :=
  ⟨(createPolicy_dispatch_exhaustive cBadPolicyOpts).1
      (by decide) (by decide) (by decide),
   (createPolicy_dispatch_exhaustive cIamPolicyOpts).2.1 (by decide)⟩

/-- **C10.** Every call of the shared `createIamRole` factory declares its
role under the fixed logical name `"role"`, whatever the options say; in
particular any two calls produce the same logical role name. -/
theorem createIamRole_fixed_logical_name :
    (∀ o : RoleOptions,
      (createIamRole o).head?.map Resource.logicalNameOf = some "role") ∧
    (∀ o₁ o₂ : RoleOptions,
      (createIamRole o₁).head?.map Resource.logicalNameOf =
        (createIamRole o₂).head?.map Resource.logicalNameOf) :=
  ⟨fun _ => rfl, fun _ _ => rfl⟩

/-!
## Tagging: which created resources carry `{Environment, ManagedBy}` tags
-/

theorem mem_rolePolicyAttachmentsFrom {n : String} {i : Nat} {l : List String}
    {x : Resource} (hx : x ∈ rolePolicyAttachmentsFrom n i l) :
    ∃ (j : Nat) (arn : String),
      x = Resource.rolePolicyAttachment (n ++ "-policy-" ++ toString j)
        (Ref.roleNameOf n) arn := by
  induction l generalizing i with
  | nil => cases hx
  | cons a rest ih =>
    rw [rolePolicyAttachmentsFrom] at hx
    rcases List.mem_cons.mp hx with rfl | h
    · exact ⟨i, a, rfl⟩
    · exact ih h

theorem mem_groupAttachmentsFrom {n : String} {i : Nat} {l : List String}
    {x : Resource} (hx : x ∈ groupAttachmentsFrom n i l) :
    ∃ (nm : String) (g : Ref) (arn : Ref),
      x = Resource.groupPolicyAttachment nm g arn := by
  induction l generalizing i with
  | nil => cases hx
  | cons a rest ih =>
    rw [groupAttachmentsFrom] at hx
    rcases List.mem_cons.mp hx with rfl | h
    · exact ⟨_, _, _, rfl⟩
    · exact ih h

/-- **C8 (counterexample).** An account created by the foundation
accounts loop carries neither an `Environment` nor a `ManagedBy` tag: the
loop passes no tags at all to the constructor. -/
theorem account_resource_lacks_required_tags :
    ∃ r ∈ wireAccounts cAccounts [("dev", Ref.ouId "dev")],
      getKey r.resTags "Environment" = none ∧
      getKey r.resTags "ManagedBy" = none := by
  decide

/-- **C8 (amended).** Tagging is applied to IAM policies (whose factory
always writes both keys), to the dev stack's roles and users — but NOT
uniformly: organization policies (SCP and tag kinds), accounts, and
groups (and their attachments) are created with no tags at all. -/
theorem iam_entities_tagged_org_entities_untagged
    (o : PolicyOptions) (environment : String) (rc : RoleRecord)
    (gc : List GroupRecord) (rt : List RoleRecord) (mpn : List String)
    (u : UserRecord) (res : List Resource)
    (accountsCfg : List (String × List AccountRecord)) (ouIds : List (String × Ref))
    (gname : String) (gpath : Option String) (garns : List String)
    (hres : wireUser gc rt mpn u = Except.ok res) :
    (∀ r ∈ (createIamPolicy o).1,
      (getKey r.resTags "Environment").isSome = true ∧
      getKey r.resTags "ManagedBy" = some "pulumi") ∧
    (∀ r ∈ wireRole environment rc, r.isIamRoleRes = true →
      getKey r.resTags "Environment" = some environment ∧
      getKey r.resTags "ManagedBy" = some "pulumi") ∧
    (∀ r ∈ res, r.isIamUserRes = true →
      getKey r.resTags "Environment" = some "dev" ∧
      getKey r.resTags "ManagedBy" = some "pulumi") ∧
    (∀ r ∈ (createServiceControlPolicy o).1, r.resTags = []) ∧
    (∀ r ∈ (createTagPolicy o).1, r.resTags = []) ∧
    (∀ r ∈ wireAccounts accountsCfg ouIds, r.resTags = []) ∧
    (∀ r ∈ createIamGroup gname gpath garns, r.resTags = []) := by
  refine ⟨?_, ?_, ?_, ?_, ?_, ?_, ?_⟩
  · intro r hr
    rcases List.mem_cons.mp hr with rfl | h
    · constructor
      · rw [Resource.resTags,
          getKey_setKey_ne _ _ (by decide : ("Environment" : String) ≠ "ManagedBy"),
          getKey_setKey_self]
        rfl
      · rw [Resource.resTags, getKey_setKey_self]
    · cases h
  · intro r hr hrole
    rcases List.mem_cons.mp hr with rfl | h
    · exact ⟨rfl, rfl⟩
    · obtain ⟨j, arn, rfl⟩ := mem_rolePolicyAttachmentsFrom h
      simp [Resource.isIamRoleRes] at hrole
  · rw [wireUser_eq_ok] at hres
    injection hres with hres
    subst hres
    intro r hr huser
    rcases List.mem_cons.mp hr with rfl | h
    · exact ⟨rfl, rfl⟩
    · exfalso
      rcases List.mem_append.mp h with h2 | h3
      · rcases List.mem_append.mp h2 with h4 | h5
        · by_cases hm : (u.groups.filter (groupsHas gc "dev")).isEmpty
          · rw [if_pos hm] at h4
            cases h4
          · rw [if_neg hm] at h4
            rcases List.mem_singleton.mp h4 with rfl
            simp [Resource.isIamUserRes] at huser
        · obtain ⟨p, rfl⟩ := mem_wireManagedPolicies h5
          simp [Resource.isIamUserRes] at huser
      · obtain ⟨rr, hcase | hcase⟩ := mem_assume_flatMap h3 <;> subst hcase <;>
          simp [expectedAssumePolicy, expectedAssumeAttachment,
            Resource.isIamUserRes] at huser
  · intro r hr
    rcases List.mem_cons.mp hr with rfl | h
    · rfl
    · rcases List.mem_singleton.mp h with rfl
      rfl
  · intro r hr
    cases hto : o.targetId with
    | none =>
      unfold createTagPolicy at hr
      rw [hto] at hr
      rcases List.mem_cons.mp hr with rfl | h
      · rfl
      · cases h
    | some tid =>
      unfold createTagPolicy at hr
      rw [hto] at hr
      rcases List.mem_cons.mp hr with rfl | h
      · rfl
      · rcases List.mem_singleton.mp h with rfl
        rfl
  · intro r hr
    rw [wireAccounts] at hr
    rw [List.mem_flatMap] at hr
    obtain ⟨entry, -, hmem⟩ := hr
    obtain ⟨a, -, rfl⟩ := List.mem_map.mp hmem
    rfl
  · intro r hr
    rcases List.mem_cons.mp hr with rfl | h
    · rfl
    · obtain ⟨nm, g, arn, rfl⟩ := mem_groupAttachmentsFrom h
      rfl

/-- Concrete instantiation of the amended tagging theorem on the IAM
policy the dev stack creates for `sandbox-environments-access`. -/
theorem iam_entities_tagged_org_entities_untagged_witness :
    (getKey (Resource.resTags (Resource.iamPolicy "sandbox-environments-access"
        (some "Managed policy for sandbox-environments-access")
        ⟨"2012-10-17", []⟩ (some "/managed-policies/")
        [("Environment", "default"), ("ManagedBy", "pulumi")]))
      "Environment").isSome = true ∧
    getKey (Resource.resTags (Resource.iamPolicy "sandbox-environments-access"
        (some "Managed policy for sandbox-environments-access")
        ⟨"2012-10-17", []⟩ (some "/managed-policies/")
        [("Environment", "default"), ("ManagedBy", "pulumi")]))
      "ManagedBy" = some "pulumi" :=
  (iam_entities_tagged_org_entities_untagged cIamPolicyOpts "development"
    ⟨"dev-limited-role", "Limited access role", []⟩ cGroups cRoles cManaged
    cUser cUserResources cAccounts [] "org-everyone" (some "/groups/") []
    (by rfl)).1
    (Resource.iamPolicy "sandbox-environments-access"
      (some "Managed policy for sandbox-environments-access")
      ⟨"2012-10-17", []⟩ (some "/managed-policies/")
      [("Environment", "default"), ("ManagedBy", "pulumi")]) (by decide)

/-!
## Output projections
-/

/-- **C9 (counterexample).** The dev stack's roles output entry for the
created role `dev-limited-role` is not an `{id, arn, name}` triple: it
has no `id` field at all. -/
theorem roles_output_entry_missing_id :
    ∃ e ∈ projectRolesOutput cRoles,
      e.1 = "dev-limited-role" ∧ "id" ∉ e.2.map (fun f => f.1) := by
  decide

/-- **C9 (amended).** Every roles-output entry carries exactly the fields
`arn` and `name` (in that order), and every accounts-output entry exactly
the fields `id` and `arn`; only resource identifiers appear, never other
fields. -/
theorem output_projection_identifier_fields
    (roleTable : List RoleRecord) (accountsCfg : List (String × List AccountRecord)) :
    (∀ e ∈ projectRolesOutput roleTable, e.2.map (fun f => f.1) = ["arn", "name"]) ∧
    (∀ e ∈ projectAccountsOutput accountsCfg,
      e.2.map (fun f => f.1) = ["id", "arn"]) := by
  constructor <;> intro e he
  · rw [projectRolesOutput] at he
    obtain ⟨n, -, rfl⟩ := List.mem_map.mp he
    rfl
  · rw [projectAccountsOutput] at he
    obtain ⟨n, -, rfl⟩ := List.mem_map.mp he
    rfl

/-- Concrete instantiation of the output-shape theorem on the scenario
role table's single entry. -/
theorem output_projection_identifier_fields_witness :
    [("arn", OutVal.ref (Ref.roleArn "dev-limited-role")),
     ("name", OutVal.ref (Ref.roleNameOf "dev-limited-role"))].map (fun f => f.1) =
      ["arn", "name"] :=
  (output_projection_identifier_fields cRoles cAccounts).1
    ("dev-limited-role",
     [("arn", OutVal.ref (Ref.roleArn "dev-limited-role")),
      ("name", OutVal.ref (Ref.roleNameOf "dev-limited-role"))]) (by decide)
